import Mathlib

/-!
Verification of the `Avro2JSONSchemaConverter` (src/index.js) against its
specification.  The converter walks a resolved Avro type tree and produces a
JSON-Schema fragment.  We embed the type tree, the JSON-like output values,
the logical-type registry and the recursive conversion itself, and prove the
specified properties about them.
-/

namespace AvroToJsonSchema

/-- JSON-like values, the output language of the converter (and the type of
record-field default values).  Numbers are embedded as integers: every numeric
literal the program produces (`1`, `-(2**31)`, `2**31 - 1`, `-(2**63)`, and the
double `2**63 - 1` rounds to) is an integer that an IEEE-754 double holds
exactly, so `Int` represents the emitted values faithfully. -/
inductive Json where
  | null
  | bool (b : Bool)
  | num (n : Int)
  | str (s : String)
  | arr (elems : List Json)
  | obj (entries : List (String × Json))

/-- The resolved source type tree handed to the converter by the adapter
(`avsc`'s `Type.forSchema`).  Tags follow §3 of the spec: record fields are
`(name, defaultValue, fieldType)` triples where `defaultValue = none` models
the accessor returning `undefined` (no default), and a `Logical` node carries
its `typeName` string of the form `namespace:logical-name`. -/
inductive TypeNode where
  | nullT
  | booleanT
  | intT
  | longT
  | floatT
  | doubleT
  | stringT
  | bytesT
  | fixedT (size : Nat)
  | enumT (symbols : List String)
  | arrayT (itemsType : TypeNode)
  | mapT (valuesType : TypeNode)
  | recordT (fields : List (String × Option Json × TypeNode))
  | unwrappedUnionT (types : List TypeNode)
  | wrappedUnionT (types : List TypeNode)
  | logicalT (typeName : String) (underlying : TypeNode)

/-- Errors a `convert` call can end in.  The code itself only ever throws the
JavaScript `TypeError` produced by calling `.bind` on an `undefined` property
lookup (`typeError`).  The other two constructors are Modelled from the spec:
§7 names distinct `UnknownLogicalTypeError` and `UnsupportedTypeError`
classes, but the repository defines no such classes; the constructors exist
here only so that claims about those errors can be stated. -/
inductive JSError where
  | typeError (msg : String)
  | unknownLogicalTypeError (name : String)
  | unsupportedTypeError (name : String)

/-- Is this error the spec's `UnknownLogicalTypeError`? -/
def JSError.isUnknownLogicalTypeError : JSError → Bool
  | .unknownLogicalTypeError _ => true
  | _ => false

/-- Is this error the spec's `UnsupportedTypeError`? -/
def JSError.isUnsupportedTypeError : JSError → Bool
  | .unsupportedTypeError _ => true
  | _ => false

/-- Message of the `TypeError` V8 raises when `resolveConverter` reads `.bind`
of an `undefined` lookup (unregistered logical name, or a structural tag with
no matching `convert<Kind>` method). -/
def bindMsg : String := "Cannot read properties of undefined (reading bind)"

/-- Message of the `TypeError` raised in strict mode when `convertRecord`
assigns the `default` property on a fragment that is not an object. -/
def nonObjectAssignMsg : String := "Cannot create property on a non-object"

/-- Property lookup on a JavaScript object, represented as an association list
in insertion order: the first (and, for objects built by assignment, only)
entry with the key wins. -/
def jsLookup {α : Type} : List (String × α) → String → Option α
  | [], _ => none
  | (k, v) :: rest, key => if k = key then some v else jsLookup rest key

/-- Property assignment `target[key] = v` on a JavaScript object: an existing
key keeps its position and gets the new value, a fresh key is appended. -/
def jsObjSet {α : Type} : List (String × α) → String → α → List (String × α)
  | [], key, v => [(key, v)]
  | (k, w) :: rest, key, v =>
      if k = key then (k, v) :: rest else (k, w) :: jsObjSet rest key v

/-- `Object.assign(target, src)`: copy the entries of `src` onto `target` in
order, later assignments overwriting earlier ones. -/
def objAssign {α : Type} (target src : List (String × α)) : List (String × α) :=
  src.foldl (fun acc kv => jsObjSet acc kv.1 kv.2) target

/-- `String.prototype.split` with a single-character separator, on the
character list of the string. -/
def splitChars (sep : Char) : List Char → List (List Char)
  | [] => [[]]
  | c :: rest =>
      let r := splitChars sep rest
      if c = sep then [] :: r
      else
        match r with
        | [] => [[c]]
        | s :: ss => (c :: s) :: ss

/-- JavaScript `s.split(sep)` for a one-character separator. -/
def jsSplit (s : String) (sep : Char) : List String :=
  (splitChars sep s.toList).map (fun cs => String.mk cs)

/-- The registry key `resolveConverter` extracts from a logical node:
`type.typeName.split(':')[1]`, i.e. the segment strictly between the first
and second colon.  When the split has no second element, JavaScript indexes
with `undefined`, which property access coerces to the string key
`"undefined"`. -/
def logicalKey (typeName : String) : String :=
  ((jsSplit typeName ':')[1]?).getD "undefined"

/-- A logical-type converter: an arbitrary function from the (Logical) node to
an output fragment, as stored in `logicalTypeConvertors`. -/
abbrev LogicalConv := TypeNode → Json

/-- The logical-type registry `this.logicalTypeConvertors`: a JavaScript
object mapping logical-name to converter function. -/
abbrev Registry := List (String × LogicalConv)

/-- Built-in `decimal` converter. -/
def decimal : LogicalConv := fun _ => .obj [("type", .str "number")]

/-- Built-in `timestamp-millis` converter.  The source computes
`2 ** 63 - 1` with double arithmetic; `2 ** 63` is exact but subtracting `1`
rounds back to `2 ** 63 = 9223372036854775808`, which is the value emitted. -/
def timestampMillis : LogicalConv :=
  fun _ => .obj [("type", .str "integer"), ("minimum", .num 1), ("maximum", .num 9223372036854775808)]

/-- Built-in `date` converter (same body as `timestamp-millis`). -/
def date : LogicalConv :=
  fun _ => .obj [("type", .str "integer"), ("minimum", .num 1), ("maximum", .num 9223372036854775808)]

/-- The module-level `defaultLogicalTypes` object, in declaration order. -/
def defaultLogicalTypes : Registry :=
  [("decimal", decimal), ("date", date), ("timestamp-millis", timestampMillis)]

/-- `setupLogicalTypes`: `Object.assign({}, defaultLogicalTypes, logicalTypes)`
— the registry assembled at construction, caller-supplied entries overriding
built-ins of the same name. -/
def mkRegistry (logicalTypes : Registry) : Registry :=
  objAssign (objAssign [] defaultLogicalTypes) logicalTypes

/-- `convertBuffer(min, max)`: the byte-blob fragment.  `Object.assign` adds
the `maxLength` entry before the `minLength` entry and skips either when the
corresponding argument is `undefined` (the guard expression is `false`). -/
def convertBuffer (min max : Option Nat) : Json :=
  .obj ([("type", .str "string"), ("pattern", .str "^[\u0000-ÿ]*$")]
    ++ (match max with
        | some m => [("maxLength", Json.num (Int.ofNat m))]
        | none => [])
    ++ (match min with
        | some m => [("minLength", Json.num (Int.ofNat m))]
        | none => []))

mutual

/-- The conversion of one node: `resolveConverter(type)` followed by the call
of the resolved converter.  Logical nodes are dispatched through the registry
by `logicalKey`; every other tag is dispatched reflectively through the method
name `convert` ++ `constructor.name.replace("Type", "")`, which resolves the
cases below 1:1.  `MapType` yields the name `convertMap`, a method the class
does not define, so the lookup is `undefined` and `.bind` throws (`bindMsg`);
the integer bounds are the exact values of the doubles the source computes
(`2 ** 63 - 1` rounds to `2 ** 63`, see `timestampMillis`). -/
def runConv (reg : Registry) : TypeNode → Except JSError Json
  | .nullT => .ok (.obj [("type", .str "null")])
  | .booleanT => .ok (.obj [("type", .str "boolean")])
  | .intT => .ok (.obj [("type", .str "integer"), ("minimum", .num (-2147483648)),
      ("maximum", .num 2147483647)])
  | .longT => .ok (.obj [("type", .str "integer"), ("minimum", .num (-9223372036854775808)),
      ("maximum", .num 9223372036854775808)])
  | .floatT => .ok (.obj [("type", .str "number")])
  | .doubleT => .ok (.obj [("type", .str "number")])
  | .stringT => .ok (.obj [("type", .str "string")])
  | .bytesT => .ok (convertBuffer none none)
  | .fixedT size => .ok (convertBuffer (some size) (some size))
  | .enumT symbols => .ok (.obj [("type", .str "string"), ("enum", .arr (symbols.map .str))])
  | .arrayT itemsType =>
      match runConv reg itemsType with
      | .ok items => .ok (.obj [("type", .str "array"), ("items", items)])
      | .error e => .error e
  | .mapT _ => .error (.typeError bindMsg)
  | .recordT fields =>
      match runFields reg fields [] [] with
      | .ok (props, req) => .ok (.obj [("type", .str "object"), ("properties", .obj props),
          ("required", .arr (req.map .str))])
      | .error e => .error e
  | .unwrappedUnionT types => runUnion reg types
  | .wrappedUnionT types => runUnion reg types
  | .logicalT typeName underlying =>
      match jsLookup reg (logicalKey typeName) with
      | some f => .ok (f (.logicalT typeName underlying))
      | none => .error (.typeError bindMsg)

/-- `convertUnion`: convert each member in order and wrap the list in
`oneOf`.  Both `convertUnwrappedUnion` and `convertWrappedUnion` delegate
here unchanged. -/
def runUnion (reg : Registry) (types : List TypeNode) : Except JSError Json :=
  match runList reg types with
  | .ok frags => .ok (.obj [("oneOf", .arr frags)])
  | .error e => .error e

/-- `type.types.map(t => this.resolveConverter(t)(t))`, with a thrown error
propagating out of the whole map. -/
def runList (reg : Registry) : List TypeNode → Except JSError (List Json)
  | [] => .ok []
  | t :: ts =>
      match runConv reg t with
      | .ok f =>
          match runList reg ts with
          | .ok fs => .ok (f :: fs)
          | .error e => .error e
      | .error e => .error e

/-- The `type.fields.forEach` loop of `convertRecord`, threading the
`properties` object and `required` array it mutates.  A field with a defined
default gets the default assigned onto its already-stored fragment (strict
mode throws when that fragment is not an object); a field without one is
pushed onto `required`. -/
def runFields (reg : Registry) :
    List (String × Option Json × TypeNode) → List (String × Json) → List String →
    Except JSError (List (String × Json) × List String)
  | [], props, req => .ok (props, req)
  | (name, none, ty) :: rest, props, req =>
      match runConv reg ty with
      | .ok frag => runFields reg rest (jsObjSet props name frag) (req ++ [name])
      | .error e => .error e
  | (name, some d, ty) :: rest, props, req =>
      match runConv reg ty with
      | .ok (.obj kvs) =>
          runFields reg rest (jsObjSet props name (.obj (jsObjSet kvs "default" d))) req
      | .ok .null => .error (.typeError nonObjectAssignMsg)
      | .ok (.bool _) => .error (.typeError nonObjectAssignMsg)
      | .ok (.num _) => .error (.typeError nonObjectAssignMsg)
      | .ok (.str _) => .error (.typeError nonObjectAssignMsg)
      | .ok (.arr _) => .error (.typeError nonObjectAssignMsg)
      | .error e => .error e

end

/-- A converter instance: the two private properties `setupLogicalTypes`
stores on `this` at construction, the registry of logical-type converters and
the marker classes handed to the adapter (`Object.keys` of the registry, in
insertion order; the anonymous classes themselves carry no data). -/
structure Inst where
  logicalTypeConvertors : Registry
  logicalTypeFakeClasses : List String

/-- `new Avro2JSONSchemaConverter({logicalTypes})`: the constructor calls
`setupLogicalTypes`, which assembles the registry once and derives the marker
classes from its keys. -/
def mkInst (logicalTypes : Registry) : Inst :=
  let convertors := mkRegistry logicalTypes
  { logicalTypeConvertors := convertors
    logicalTypeFakeClasses := convertors.map (fun kv => kv.1) }

mutual

/-- The conversion with the instance state threaded through every method
call, exactly as `this` is: each step returns the result together with the
instance it leaves behind, so that mutation of the instance (were the code to
perform any) would be observable.  The bodies mirror `runConv`. -/
def runConvSt (inst : Inst) : TypeNode → (Except JSError Json) × Inst
  | .nullT => (.ok (.obj [("type", .str "null")]), inst)
  | .booleanT => (.ok (.obj [("type", .str "boolean")]), inst)
  | .intT => (.ok (.obj [("type", .str "integer"), ("minimum", .num (-2147483648)),
      ("maximum", .num 2147483647)]), inst)
  | .longT => (.ok (.obj [("type", .str "integer"), ("minimum", .num (-9223372036854775808)),
      ("maximum", .num 9223372036854775808)]), inst)
  | .floatT => (.ok (.obj [("type", .str "number")]), inst)
  | .doubleT => (.ok (.obj [("type", .str "number")]), inst)
  | .stringT => (.ok (.obj [("type", .str "string")]), inst)
  | .bytesT => (.ok (convertBuffer none none), inst)
  | .fixedT size => (.ok (convertBuffer (some size) (some size)), inst)
  | .enumT symbols => (.ok (.obj [("type", .str "string"), ("enum", .arr (symbols.map .str))]), inst)
  | .arrayT itemsType =>
      match runConvSt inst itemsType with
      | (.ok items, inst2) => (.ok (.obj [("type", .str "array"), ("items", items)]), inst2)
      | (.error e, inst2) => (.error e, inst2)
  | .mapT _ => (.error (.typeError bindMsg), inst)
  | .recordT fields =>
      match runFieldsSt inst fields [] [] with
      | (.ok (props, req), inst2) => (.ok (.obj [("type", .str "object"), ("properties", .obj props),
          ("required", .arr (req.map .str))]), inst2)
      | (.error e, inst2) => (.error e, inst2)
  | .unwrappedUnionT types => runUnionSt inst types
  | .wrappedUnionT types => runUnionSt inst types
  | .logicalT typeName underlying =>
      match jsLookup inst.logicalTypeConvertors (logicalKey typeName) with
      | some f => (.ok (f (.logicalT typeName underlying)), inst)
      | none => (.error (.typeError bindMsg), inst)

/-- State-threaded `convertUnion`. -/
def runUnionSt (inst : Inst) (types : List TypeNode) : (Except JSError Json) × Inst :=
  match runListSt inst types with
  | (.ok frags, inst2) => (.ok (.obj [("oneOf", .arr frags)]), inst2)
  | (.error e, inst2) => (.error e, inst2)

/-- State-threaded member-list conversion. -/
def runListSt (inst : Inst) : List TypeNode → (Except JSError (List Json)) × Inst
  | [] => (.ok [], inst)
  | t :: ts =>
      match runConvSt inst t with
      | (.ok f, inst2) =>
          (match runListSt inst2 ts with
          | (.ok fs, inst3) => (.ok (f :: fs), inst3)
          | (.error e, inst3) => (.error e, inst3))
      | (.error e, inst2) => (.error e, inst2)

/-- State-threaded field loop of `convertRecord`. -/
def runFieldsSt (inst : Inst) :
    List (String × Option Json × TypeNode) → List (String × Json) → List String →
    (Except JSError (List (String × Json) × List String)) × Inst
  | [], props, req => (.ok (props, req), inst)
  | (name, none, ty) :: rest, props, req =>
      match runConvSt inst ty with
      | (.ok frag, inst2) => runFieldsSt inst2 rest (jsObjSet props name frag) (req ++ [name])
      | (.error e, inst2) => (.error e, inst2)
  | (name, some d, ty) :: rest, props, req =>
      match runConvSt inst ty with
      | (.ok (.obj kvs), inst2) =>
          runFieldsSt inst2 rest (jsObjSet props name (.obj (jsObjSet kvs "default" d))) req
      | (.ok .null, inst2) => (.error (.typeError nonObjectAssignMsg), inst2)
      | (.ok (.bool _), inst2) => (.error (.typeError nonObjectAssignMsg), inst2)
      | (.ok (.num _), inst2) => (.error (.typeError nonObjectAssignMsg), inst2)
      | (.ok (.str _), inst2) => (.error (.typeError nonObjectAssignMsg), inst2)
      | (.ok (.arr _), inst2) => (.error (.typeError nonObjectAssignMsg), inst2)
      | (.error e, inst2) => (.error e, inst2)

end

/-! ### Reading fragments -/

/-- Property lookup on a fragment: only objects have properties. -/
def Json.lookup : Json → String → Option Json
  | .obj kvs, key => jsLookup kvs key
  | _, _ => none

/-- The fragment stored for `name` under a record fragment's `properties`. -/
def fragProp (frag : Json) (name : String) : Option Json :=
  (frag.lookup "properties").bind (fun p => p.lookup name)

/-- The `required` array of a record fragment (empty when absent). -/
def fragRequired (frag : Json) : List Json :=
  match frag.lookup "required" with
  | some (.arr l) => l
  | _ => []

/-- A well-behaved registry: every stored logical-type converter returns a
plain object without a `default` entry (true of the built-ins, which return
constant `type`-only objects). -/
def GoodReg (reg : Registry) : Prop :=
  ∀ e ∈ reg, ∀ t, ∃ kvs, e.2 t = Json.obj kvs ∧ jsLookup kvs "default" = none

/-- The override used in the C7 witness. -/
def customDecimal : LogicalConv := fun _ => .str "custom"

/-- The full-name registry entry used in the C8 counterexample. -/
def fooBarConv : LogicalConv := fun _ => Json.null

/-! ### Association-list lemmas -/

theorem jsLookup_jsObjSet {α : Type} (l : List (String × α)) (k : String) (v : α) (k' : String) :
    jsLookup (jsObjSet l k v) k' = if k = k' then some v else jsLookup l k' := by
  induction l with
  | nil =>
      by_cases hk : k = k' <;> simp [jsObjSet, jsLookup, hk]
  | cons p rest ih =>
      obtain ⟨k0, v0⟩ := p
      by_cases h0 : k0 = k <;> by_cases hk : k0 = k'
      · subst h0; subst hk
        simp [jsObjSet, jsLookup]
      · subst h0
        simp [jsObjSet, jsLookup, hk]
      · subst hk
        have h1 : ¬ k = k0 := fun h => h0 h.symm
        simp [jsObjSet, jsLookup, h0, h1]
      · simp [jsObjSet, jsLookup, h0, hk, ih]

theorem jsLookup_eq_none_of_not_mem {α : Type} {l : List (String × α)} {k : String}
    (h : k ∉ l.map Prod.fst) : jsLookup l k = none := by
  induction l with
  | nil => rfl
  | cons p rest ih =>
      obtain ⟨k0, v0⟩ := p
      simp only [List.map_cons, List.mem_cons] at h
      push_neg at h
      have hne : ¬ k0 = k := fun hk => h.1 hk.symm
      simp only [jsLookup, if_neg hne, ih h.2]

theorem jsLookup_mem {α : Type} {l : List (String × α)} {k : String} {v : α}
    (h : jsLookup l k = some v) : (k, v) ∈ l := by
  induction l with
  | nil => simp [jsLookup] at h
  | cons p rest ih =>
      obtain ⟨k0, v0⟩ := p
      by_cases hk : k0 = k
      · subst hk
        rw [jsLookup, if_pos rfl] at h
        obtain rfl : v0 = v := Option.some.inj h
        exact List.mem_cons_self _ _
      · rw [jsLookup, if_neg hk] at h
        exact List.mem_cons_of_mem _ (ih h)

theorem jsObjSet_keys {α : Type} (l : List (String × α)) (k : String) (v : α) (k' : String) :
    k' ∈ (jsObjSet l k v).map Prod.fst ↔ k' = k ∨ k' ∈ l.map Prod.fst := by
  induction l with
  | nil => simp [jsObjSet, eq_comm]
  | cons p rest ih =>
      obtain ⟨k0, v0⟩ := p
      by_cases h0 : k0 = k
      · subst h0
        simp [jsObjSet]
      · simp only [jsObjSet, if_neg h0, List.map_cons, List.mem_cons, ih]
        tauto

theorem jsLookup_objAssign {α : Type} (t : List (String × α)) (s : List (String × α))
    (hs : (s.map Prod.fst).Nodup) (k : String) :
    jsLookup (objAssign t s) k = (jsLookup s k).or (jsLookup t k) := by
  induction s generalizing t with
  | nil => simp [objAssign, jsLookup, Option.or]
  | cons p rest ih =>
      obtain ⟨k0, v0⟩ := p
      simp only [List.map_cons, List.nodup_cons] at hs
      have step : objAssign t ((k0, v0) :: rest) = objAssign (jsObjSet t k0 v0) rest := by
        simp [objAssign]
      rw [step, ih _ hs.2, jsLookup, jsLookup_jsObjSet]
      by_cases hk : k0 = k
      · subst hk
        rw [if_pos rfl, if_pos rfl, jsLookup_eq_none_of_not_mem hs.1]
        simp [Option.or]
      · rw [if_neg hk, if_neg hk]

/-! ### Shape of successful fragments -/

/-- Every fragment a conversion returns is an object whose top level carries
no `default` entry (the enclosing record attaches one afterwards when the
field has a default). -/
theorem runConv_obj_no_default {reg : Registry} (hg : GoodReg reg) {t : TypeNode} {j : Json}
    (h : runConv reg t = .ok j) :
    ∃ kvs, j = Json.obj kvs ∧ jsLookup kvs "default" = none := by
  cases t with
  | nullT => simp [runConv] at h; exact ⟨_, h.symm, rfl⟩
  | booleanT => simp [runConv] at h; exact ⟨_, h.symm, rfl⟩
  | intT => simp [runConv] at h; exact ⟨_, h.symm, rfl⟩
  | longT => simp [runConv] at h; exact ⟨_, h.symm, rfl⟩
  | floatT => simp [runConv] at h; exact ⟨_, h.symm, rfl⟩
  | doubleT => simp [runConv] at h; exact ⟨_, h.symm, rfl⟩
  | stringT => simp [runConv] at h; exact ⟨_, h.symm, rfl⟩
  | bytesT => simp [runConv] at h; exact ⟨_, h.symm, rfl⟩
  | fixedT size => simp [runConv] at h; exact ⟨_, h.symm, rfl⟩
  | enumT symbols => simp [runConv] at h; exact ⟨_, h.symm, rfl⟩
  | arrayT itemsType =>
      rw [runConv] at h
      split at h
      · obtain rfl : Json.obj [("type", .str "array"), ("items", _)] = j := by injection h
        exact ⟨_, rfl, rfl⟩
      · exact absurd h (by simp)
  | mapT valuesType => simp [runConv] at h
  | recordT fields =>
      rw [runConv] at h
      split at h
      · rename_i props req heq
        obtain rfl : Json.obj [("type", .str "object"), ("properties", .obj props),
            ("required", .arr (req.map .str))] = j := by injection h
        exact ⟨_, rfl, rfl⟩
      · exact absurd h (by simp)
  | unwrappedUnionT types =>
      rw [runConv, runUnion] at h
      split at h
      · obtain rfl : Json.obj [("oneOf", .arr _)] = j := by injection h
        exact ⟨_, rfl, rfl⟩
      · exact absurd h (by simp)
  | wrappedUnionT types =>
      rw [runConv, runUnion] at h
      split at h
      · obtain rfl : Json.obj [("oneOf", .arr _)] = j := by injection h
        exact ⟨_, rfl, rfl⟩
      · exact absurd h (by simp)
  | logicalT typeName underlying =>
      rw [runConv] at h
      split at h
      · rename_i f hf
        obtain rfl : f (.logicalT typeName underlying) = j := by injection h
        exact hg _ (jsLookup_mem hf) _
      · exact absurd h (by simp)

/-! ### Union members -/

theorem runList_of_forall₂ {reg : Registry} {ms : List TypeNode} {fs : List Json}
    (h : List.Forall₂ (fun m f => runConv reg m = .ok f) ms fs) :
    runList reg ms = .ok fs := by
  induction h with
  | nil => rw [runList]
  | cons h1 _ ih => simp [runList, h1, ih]

/-! ### The record field loop -/

/-- Processing fields whose names avoid `name` neither changes the stored
property at `name` nor `name`'s membership in the required list. -/
theorem runFields_frame {reg : Registry} :
    ∀ (fs : List (String × Option Json × TypeNode)) (props : List (String × Json))
      (req : List String) (P : List (String × Json)) (R : List String),
      runFields reg fs props req = .ok (P, R) →
      ∀ name, name ∉ fs.map (fun f => f.1) →
        jsLookup P name = jsLookup props name ∧ (name ∈ R ↔ name ∈ req) := by
  intro fs
  induction fs with
  | nil =>
      intro props req P R h name _
      rw [runFields] at h
      obtain ⟨rfl, rfl⟩ : props = P ∧ req = R := by
        have h2 : (props, req) = (P, R) := by injection h
        exact ⟨congrArg Prod.fst h2, congrArg Prod.snd h2⟩
      exact ⟨rfl, Iff.rfl⟩
  | cons f rest ih =>
      obtain ⟨hname, hdflt, hty⟩ := f
      intro props req P R h name hn
      rw [List.map_cons, List.mem_cons] at hn
      push_neg at hn
      obtain ⟨hne, hn⟩ := hn
      cases hdflt with
      | none =>
          rw [runFields] at h
          split at h
          · rename_i frag _
            obtain ⟨h1, h2⟩ := ih _ _ P R h name hn
            refine ⟨h1.trans ?_, h2.trans ?_⟩
            · rw [jsLookup_jsObjSet, if_neg (fun hk => hne hk.symm)]
            · rw [List.mem_append]
              simp [fun hk => hne hk]
          · exact Except.noConfusion h
      | some d =>
          rw [runFields] at h
          split at h
          · rename_i kvs _
            obtain ⟨h1, h2⟩ := ih _ _ P R h name hn
            exact ⟨h1.trans (by rw [jsLookup_jsObjSet, if_neg (fun hk => hne hk.symm)]), h2⟩
          · exact Except.noConfusion h
          · exact Except.noConfusion h
          · exact Except.noConfusion h
          · exact Except.noConfusion h
          · exact Except.noConfusion h
          · exact Except.noConfusion h

/-- The required/default law at the level of the field loop: a field's stored
fragment carries exactly the field's default (`none` meaning no `default`
entry), and its name ends up in the required list exactly when it has no
default. -/
theorem runFields_spec {reg : Registry} (hg : GoodReg reg) :
    ∀ (fs : List (String × Option Json × TypeNode)) (props : List (String × Json))
      (req : List String) (P : List (String × Json)) (R : List String),
      runFields reg fs props req = .ok (P, R) →
      (fs.map (fun f => f.1)).Nodup →
      ∀ name dflt ty, (name, dflt, ty) ∈ fs → name ∉ req →
        (∃ pf, jsLookup P name = some pf ∧ Json.lookup pf "default" = dflt) ∧
        (name ∈ R ↔ dflt = none) := by
  intro fs
  induction fs with
  | nil =>
      intro _ _ _ _ _ _ _ _ _ hmem _
      exact absurd hmem (List.not_mem_nil _)
  | cons f rest ih =>
      obtain ⟨hname, hdflt, hty⟩ := f
      intro props req P R hrun hnd name dflt ty hmem hreq
      rw [List.map_cons, List.nodup_cons] at hnd
      rw [List.mem_cons] at hmem
      cases hmem with
      | inl hEq =>
          have h1 : name = hname := congrArg (fun f => f.1) hEq
          have h2 : dflt = hdflt := congrArg (fun f => f.2.1) hEq
          rw [h1] at hreq
          rw [h1, h2]
          cases hdflt with
          | none =>
              rw [runFields] at hrun
              split at hrun
              · rename_i frag hfrag
                obtain ⟨hl, hr⟩ := runFields_frame rest _ _ P R hrun hname hnd.1
                obtain ⟨kvs, rfl, hkd⟩ := runConv_obj_no_default hg hfrag
                refine ⟨⟨Json.obj kvs, ?_, ?_⟩, ?_⟩
                · rw [hl, jsLookup_jsObjSet, if_pos rfl]
                · exact hkd
                · rw [hr, List.mem_append]
                  simp
              · exact Except.noConfusion hrun
          | some d =>
              rw [runFields] at hrun
              split at hrun
              · rename_i kvs hfrag
                obtain ⟨hl, hr⟩ := runFields_frame rest _ _ P R hrun hname hnd.1
                refine ⟨⟨Json.obj (jsObjSet kvs "default" d), ?_, ?_⟩, ?_⟩
                · rw [hl, jsLookup_jsObjSet, if_pos rfl]
                · show Json.lookup (.obj (jsObjSet kvs "default" d)) "default" = some d
                  rw [Json.lookup, jsLookup_jsObjSet, if_pos rfl]
                · rw [hr]
                  simp [hreq]
              · exact Except.noConfusion hrun
              · exact Except.noConfusion hrun
              · exact Except.noConfusion hrun
              · exact Except.noConfusion hrun
              · exact Except.noConfusion hrun
              · exact Except.noConfusion hrun
      | inr hmem =>
          have hnn : hname ≠ name := by
            intro hk
            exact hnd.1 (hk ▸ List.mem_map.mpr ⟨(name, dflt, ty), hmem, rfl⟩)
          cases hdflt with
          | none =>
              rw [runFields] at hrun
              split at hrun
              · refine ih _ _ P R hrun hnd.2 name dflt ty hmem ?_
                rw [List.mem_append]
                rintro (h1 | h2)
                · exact hreq h1
                · exact hnn (List.mem_singleton.mp h2).symm
              · exact Except.noConfusion hrun
          | some d =>
              rw [runFields] at hrun
              split at hrun
              · exact ih _ _ P R hrun hnd.2 name dflt ty hmem hreq
              · exact Except.noConfusion hrun
              · exact Except.noConfusion hrun
              · exact Except.noConfusion hrun
              · exact Except.noConfusion hrun
              · exact Except.noConfusion hrun
              · exact Except.noConfusion hrun

/-- When every field has a default, the loop appends nothing to `required`. -/
theorem runFields_allDefault {reg : Registry} :
    ∀ (fs : List (String × Option Json × TypeNode)) (props : List (String × Json))
      (req : List String) (P : List (String × Json)) (R : List String),
      runFields reg fs props req = .ok (P, R) →
      (∀ f ∈ fs, f.2.1 ≠ (none : Option Json)) → R = req := by
  intro fs
  induction fs with
  | nil =>
      intro props req P R h _
      have h2 : (props, req) = (P, R) := by rw [runFields] at h; injection h
      exact (congrArg Prod.snd h2).symm
  | cons f rest ih =>
      obtain ⟨hname, hdflt, hty⟩ := f
      intro props req P R hrun hall
      cases hdflt with
      | none =>
          exact absurd rfl (hall _ (List.mem_cons_self _ _))
      | some d =>
          rw [runFields] at hrun
          split at hrun
          · exact ih _ _ P R hrun (fun f hf => hall f (List.mem_cons_of_mem _ hf))
          · exact Except.noConfusion hrun
          · exact Except.noConfusion hrun
          · exact Except.noConfusion hrun
          · exact Except.noConfusion hrun
          · exact Except.noConfusion hrun
          · exact Except.noConfusion hrun

/-! ### The state-threaded conversion neither uses nor changes anything
beyond the registry -/

mutual

theorem runConvSt_eq (inst : Inst) (t : TypeNode) :
    runConvSt inst t = (runConv inst.logicalTypeConvertors t, inst) := by
  cases t with
  | nullT => rw [runConvSt, runConv]
  | booleanT => rw [runConvSt, runConv]
  | intT => rw [runConvSt, runConv]
  | longT => rw [runConvSt, runConv]
  | floatT => rw [runConvSt, runConv]
  | doubleT => rw [runConvSt, runConv]
  | stringT => rw [runConvSt, runConv]
  | bytesT => rw [runConvSt, runConv]
  | fixedT size => rw [runConvSt, runConv]
  | enumT symbols => rw [runConvSt, runConv]
  | arrayT itemsType =>
      rw [runConvSt, runConv, runConvSt_eq inst itemsType]
      cases runConv inst.logicalTypeConvertors itemsType <;> rfl
  | mapT valuesType => rw [runConvSt, runConv]
  | recordT fields =>
      rw [runConvSt, runConv, runFieldsSt_eq inst fields [] []]
      cases runFields inst.logicalTypeConvertors fields [] [] with
      | ok pr => obtain ⟨props, req⟩ := pr; rfl
      | error e => rfl
  | unwrappedUnionT types =>
      rw [runConvSt, runConv]
      exact runUnionSt_eq inst types
  | wrappedUnionT types =>
      rw [runConvSt, runConv]
      exact runUnionSt_eq inst types
  | logicalT typeName underlying =>
      rw [runConvSt, runConv]
      cases jsLookup inst.logicalTypeConvertors (logicalKey typeName) <;> rfl

theorem runUnionSt_eq (inst : Inst) (types : List TypeNode) :
    runUnionSt inst types = (runUnion inst.logicalTypeConvertors types, inst) := by
  rw [runUnionSt, runUnion, runListSt_eq inst types]
  cases runList inst.logicalTypeConvertors types <;> rfl

theorem runListSt_eq (inst : Inst) (ts : List TypeNode) :
    runListSt inst ts = (runList inst.logicalTypeConvertors ts, inst) := by
  cases ts with
  | nil => rw [runListSt, runList]
  | cons t ts2 =>
      rw [runListSt, runList, runConvSt_eq inst t]
      cases runConv inst.logicalTypeConvertors t with
      | ok f =>
          simp only [runListSt_eq inst ts2]
          cases runList inst.logicalTypeConvertors ts2 <;> rfl
      | error e => rfl

theorem runFieldsSt_eq (inst : Inst) (fs : List (String × Option Json × TypeNode))
    (props : List (String × Json)) (req : List String) :
    runFieldsSt inst fs props req = (runFields inst.logicalTypeConvertors fs props req, inst) := by
  cases fs with
  | nil => rw [runFieldsSt, runFields]
  | cons f rest =>
      obtain ⟨name, dflt, ty⟩ := f
      cases dflt with
      | none =>
          rw [runFieldsSt, runFields, runConvSt_eq inst ty]
          cases runConv inst.logicalTypeConvertors ty with
          | ok frag => exact runFieldsSt_eq inst rest (jsObjSet props name frag) (req ++ [name])
          | error e => rfl
      | some d =>
          rw [runFieldsSt, runFields, runConvSt_eq inst ty]
          cases runConv inst.logicalTypeConvertors ty with
          | ok frag =>
              cases frag with
              | obj kvs =>
                  exact runFieldsSt_eq inst rest (jsObjSet props name (.obj (jsObjSet kvs "default" d))) req
              | null => rfl
              | bool b => rfl
              | num n => rfl
              | str s2 => rfl
              | arr l => rfl
          | error e => rfl

end

/-! ### Claim theorems -/

/-- C1, counterexample: the Long fragment's `maximum` is not the spec's
`2^63 - 1`; the double subtraction in `2 ** 63 - 1` rounds back up to
`2^63`, so the emitted bound is `9223372036854775808`. -/
theorem long_bound_counterexample :
    runConv defaultLogicalTypes .longT ≠
      .ok (.obj [("type", .str "integer"), ("minimum", .num (-9223372036854775808)),
        ("maximum", .num 9223372036854775807)]) := by
  simp [runConv]

/-- C1 (amended): an Int node converts to exactly
`{type:"integer", minimum:-2^31, maximum:2^31-1}` (both bounds exact), and a
Long node to `{type:"integer", minimum:-2^63, maximum:2^63}` — the Long
maximum is the floating-point evaluation of `2 ** 63 - 1`, which rounds to
`2^63` rather than the exact `2^63 - 1`. -/
theorem int_long_bounds (reg : Registry) :
    runConv reg .intT = .ok (.obj [("type", .str "integer"),
      ("minimum", .num (-2147483648)), ("maximum", .num 2147483647)]) ∧
    runConv reg .longT = .ok (.obj [("type", .str "integer"),
      ("minimum", .num (-9223372036854775808)), ("maximum", .num 9223372036854775808)]) :=
  ⟨by rw [runConv], by rw [runConv]⟩

/-- C2, counterexample: converting a Logical node with an unregistered name
does fail, but with the generic JavaScript `TypeError` from the failed
registry lookup, not with a distinct `UnknownLogicalTypeError` (no such
error class exists in the code). -/
theorem unknown_logical_error_counterexample :
    runConv defaultLogicalTypes (.logicalT "logical:unknownXYZ" .intT) =
      .error (.typeError bindMsg) ∧
    (JSError.typeError bindMsg).isUnknownLogicalTypeError = false := by
  constructor
  · simp [runConv, logicalKey, jsSplit, splitChars, jsLookup, defaultLogicalTypes]
  · rfl

/-- C2 (amended): for every Logical node whose extracted logical-name has no
registry entry, the convert call fails — with the generic `TypeError` raised
by calling `.bind` on the `undefined` lookup — and no fragment is returned. -/
theorem unknown_logical_fails (reg : Registry) (typeName : String) (u : TypeNode)
    (h : jsLookup reg (logicalKey typeName) = none) :
    runConv reg (.logicalT typeName u) = .error (.typeError bindMsg) := by
  rw [runConv, h]

/-- C2 witness: the default registry has no entry for `unknownXYZ`. -/
theorem unknown_logical_fails_witness :
    runConv defaultLogicalTypes (.logicalT "logical:unknownXYZ" .booleanT) =
      .error (.typeError bindMsg) :=
  unknown_logical_fails defaultLogicalTypes "logical:unknownXYZ" .booleanT rfl

/-- C3, counterexample: a Map node (outside the kind table) does fail and
yields no fragment, but with the same generic `TypeError` as any failed
dispatch, not with a distinct `UnsupportedTypeError` (no such error class
exists in the code). -/
theorem map_error_counterexample :
    runConv defaultLogicalTypes (.mapT .stringT) = .error (.typeError bindMsg) ∧
    (JSError.typeError bindMsg).isUnsupportedTypeError = false :=
  ⟨by rw [runConv], rfl⟩

/-- C3 (amended): every Map node fails dispatch — `convertMap` does not
exist, so the reflective method lookup yields `undefined` and `.bind` throws
the generic `TypeError` — and no fragment is produced. -/
theorem map_fails (reg : Registry) (valuesType : TypeNode) :
    runConv reg (.mapT valuesType) = .error (.typeError bindMsg) := by
  rw [runConv]

/-- The built-in registry is well behaved: every built-in logical converter
returns a plain object without a `default` entry. -/
theorem goodReg_defaultLogicalTypes : GoodReg defaultLogicalTypes := by
  intro e he t
  simp only [defaultLogicalTypes, List.mem_cons, List.not_mem_nil, or_false] at he
  rcases he with he | he | he <;> subst he <;> exact ⟨_, rfl, rfl⟩

/-- C4: in a record fragment, a field name is in `required` iff the field
has no default, and the stored property fragment carries a `default` entry
iff the field has one, equal to it (any defined value — `0`, `false`, `""`,
`null` — counts). -/
theorem required_default_law {reg : Registry} (hg : GoodReg reg)
    {fields : List (String × Option Json × TypeNode)} {frag : Json}
    (hconv : runConv reg (.recordT fields) = .ok frag)
    (hnd : (fields.map (fun f => f.1)).Nodup)
    {name : String} {dflt : Option Json} {ty : TypeNode}
    (hmem : (name, dflt, ty) ∈ fields) :
    (Json.str name ∈ fragRequired frag ↔ dflt = none) ∧
    (∃ pf, fragProp frag name = some pf ∧ Json.lookup pf "default" = dflt) := by
  rw [runConv] at hconv
  split at hconv
  · rename_i props req hsplit
    obtain rfl : Json.obj [("type", .str "object"), ("properties", .obj props),
        ("required", .arr (req.map .str))] = frag := by injection hconv
    obtain ⟨⟨pf, hpf, hpd⟩, hreq⟩ :=
      runFields_spec hg fields [] [] props req hsplit hnd name dflt ty hmem (List.not_mem_nil _)
    constructor
    · have hfr : fragRequired (Json.obj [("type", .str "object"), ("properties", .obj props),
          ("required", .arr (req.map .str))]) = req.map .str := rfl
      rw [hfr, ← hreq]
      constructor
      · intro hm
        obtain ⟨x, hx, he⟩ := List.mem_map.mp hm
        obtain rfl : x = name := by injection he
        exact hx
      · intro hm
        exact List.mem_map.mpr ⟨name, hm, rfl⟩
    · refine ⟨pf, ?_, hpd⟩
      have hfp : fragProp (Json.obj [("type", .str "object"), ("properties", .obj props),
          ("required", .arr (req.map .str))]) name = jsLookup props name := rfl
      rw [hfp, hpf]
  · exact Except.noConfusion hconv

/-- C4 witness: a two-field record, `a` without and `b` with default `0`. -/
theorem required_default_law_witness :
    (Json.str "a" ∈ fragRequired (Json.obj [("type", .str "object"),
        ("properties", .obj [("a", .obj [("type", .str "integer"),
            ("minimum", .num (-2147483648)), ("maximum", .num 2147483647)]),
          ("b", .obj [("type", .str "boolean"), ("default", .num 0)])]),
        ("required", .arr [.str "a"])]) ↔ (none : Option Json) = none) ∧
    (∃ pf, fragProp (Json.obj [("type", .str "object"),
        ("properties", .obj [("a", .obj [("type", .str "integer"),
            ("minimum", .num (-2147483648)), ("maximum", .num 2147483647)]),
          ("b", .obj [("type", .str "boolean"), ("default", .num 0)])]),
        ("required", .arr [.str "a"])]) "a" = some pf ∧
      Json.lookup pf "default" = (none : Option Json)) :=
  required_default_law goodReg_defaultLogicalTypes
    (by simp [runConv, runFields, jsObjSet]) (by decide)
    (show ("a", (none : Option Json), TypeNode.intT) ∈
        [("a", (none : Option Json), TypeNode.intT),
         ("b", some (Json.num 0), TypeNode.booleanT)] from List.mem_cons_self _ _)

/-- C5: converting a union wraps the members' independent conversions, in
order, in `oneOf`; and the unwrapped and wrapped encodings convert
identically (both delegate to `convertUnion`). -/
theorem union_oneOf {reg : Registry} {ms : List TypeNode} {fs : List Json}
    (h : List.Forall₂ (fun m f => runConv reg m = .ok f) ms fs) :
    runConv reg (.unwrappedUnionT ms) = .ok (.obj [("oneOf", .arr fs)]) ∧
    runConv reg (.unwrappedUnionT ms) = runConv reg (.wrappedUnionT ms) := by
  constructor
  · simp [runConv, runUnion, runList_of_forall₂ h]
  · rw [runConv, runConv]

/-- C5 witness: a two-member `[int, string]` union. -/
theorem union_oneOf_witness :
    runConv defaultLogicalTypes (.unwrappedUnionT [.intT, .stringT]) =
      .ok (.obj [("oneOf", .arr [.obj [("type", .str "integer"),
        ("minimum", .num (-2147483648)), ("maximum", .num 2147483647)],
        .obj [("type", .str "string")]])]) ∧
    runConv defaultLogicalTypes (.unwrappedUnionT [.intT, .stringT]) =
      runConv defaultLogicalTypes (.wrappedUnionT [.intT, .stringT]) :=
  union_oneOf (List.Forall₂.cons (by rw [runConv])
    (List.Forall₂.cons (by rw [runConv]) List.Forall₂.nil))

/-- C6: a Bytes node converts to exactly the base buffer fragment, with
neither `minLength` nor `maxLength`; a Fixed node of size `S` converts to
that same base fragment with both bounds present and equal to `S`. -/
theorem buffer_bounds (reg : Registry) (size : Nat) :
    runConv reg .bytesT =
      .ok (.obj [("type", .str "string"), ("pattern", .str "^[\u0000-ÿ]*$")]) ∧
    Json.lookup (.obj [("type", .str "string"), ("pattern", .str "^[\u0000-ÿ]*$")])
      "minLength" = none ∧
    Json.lookup (.obj [("type", .str "string"), ("pattern", .str "^[\u0000-ÿ]*$")])
      "maxLength" = none ∧
    runConv reg (.fixedT size) =
      .ok (.obj [("type", .str "string"), ("pattern", .str "^[\u0000-ÿ]*$"),
        ("maxLength", .num (Int.ofNat size)), ("minLength", .num (Int.ofNat size))]) ∧
    Json.lookup (.obj [("type", .str "string"), ("pattern", .str "^[\u0000-ÿ]*$"),
        ("maxLength", .num (Int.ofNat size)), ("minLength", .num (Int.ofNat size))])
      "minLength" = some (.num (Int.ofNat size)) ∧
    Json.lookup (.obj [("type", .str "string"), ("pattern", .str "^[\u0000-ÿ]*$"),
        ("maxLength", .num (Int.ofNat size)), ("minLength", .num (Int.ofNat size))])
      "maxLength" = some (.num (Int.ofNat size)) := by
  refine ⟨?_, rfl, rfl, ?_, rfl, rfl⟩
  · rw [runConv]; rfl
  · rw [runConv]; rfl

/-- C7: the registry assembled at construction is the built-ins
(`decimal`, `date`, `timestamp-millis`) merged with the caller's mapping,
caller entries overriding built-ins of the same name; consequently a
Logical node whose name the caller overrode converts with the caller's
function. -/
theorem registry_merge_override (user : Registry) (hnd : (user.map Prod.fst).Nodup) :
    (∀ n, jsLookup (mkRegistry user) n =
      (jsLookup user n).or (jsLookup defaultLogicalTypes n)) ∧
    (∀ f u, jsLookup user "decimal" = some f →
      runConv (mkRegistry user) (.logicalT "logical:decimal" u) =
        .ok (f (.logicalT "logical:decimal" u))) := by
  have base : ∀ n, jsLookup (objAssign ([] : Registry) defaultLogicalTypes) n =
      jsLookup defaultLogicalTypes n := by
    intro n
    rw [jsLookup_objAssign ([] : Registry) defaultLogicalTypes (by decide) n]
    cases jsLookup defaultLogicalTypes n <;> rfl
  have merged : ∀ n, jsLookup (mkRegistry user) n =
      (jsLookup user n).or (jsLookup defaultLogicalTypes n) := by
    intro n
    rw [mkRegistry, jsLookup_objAssign _ user hnd n, base n]
  refine ⟨merged, ?_⟩
  intro f u hf
  have hk : logicalKey "logical:decimal" = "decimal" := by decide
  have hl : jsLookup (mkRegistry user) "decimal" = some f := by
    rw [merged "decimal", hf]; rfl
  rw [runConv, hk, hl]

/-- C7 witness: overriding `decimal` makes conversion return the caller's
result instead of the built-in `{type:"number"}`. -/
theorem registry_merge_override_witness :
    runConv (mkRegistry [("decimal", customDecimal)]) (.logicalT "logical:decimal" .bytesT) =
      .ok (.str "custom") ∧
    Json.str "custom" ≠ decimal (.logicalT "logical:decimal" .bytesT) := by
  constructor
  · exact (registry_merge_override [("decimal", customDecimal)] (by decide)).2
      customDecimal .bytesT rfl
  · simp [decimal]

/-- C8, counterexample: with `"foo:bar"` registered under its full name and a
node whose `typeName` is `"logical:foo:bar"`, the claim predicts lookup of
the entire remainder `"foo:bar"` (which exists) — but `split(':')[1]` takes
only the segment `"foo"` between the first and second colon, so the
conversion fails instead of applying the registered function. -/
theorem logical_key_counterexample :
    jsLookup (mkRegistry [("foo:bar", fooBarConv)]) "foo:bar" = some fooBarConv ∧
    runConv (mkRegistry [("foo:bar", fooBarConv)]) (.logicalT "logical:foo:bar" .intT) =
      .error (.typeError bindMsg) ∧
    runConv (mkRegistry [("foo:bar", fooBarConv)]) (.logicalT "logical:foo:bar" .intT) ≠
      .ok (fooBarConv (.logicalT "logical:foo:bar" .intT)) := by
  have h2 : runConv (mkRegistry [("foo:bar", fooBarConv)])
      (.logicalT "logical:foo:bar" .intT) = .error (.typeError bindMsg) := by
    simp [runConv, logicalKey, jsSplit, splitChars, mkRegistry, objAssign, jsObjSet,
      defaultLogicalTypes, jsLookup]
  refine ⟨rfl, h2, ?_⟩
  rw [h2]
  simp

/-- C8 (amended): the converter applied to a Logical node is the registry
entry keyed by `split(':')[1]` of its `typeName` — the segment strictly
between the first and second colon (`logicalKey`), not the entire remainder
of the string. -/
theorem logical_dispatch_key (reg : Registry) (typeName : String) (u : TypeNode)
    (f : LogicalConv) (h : jsLookup reg (logicalKey typeName) = some f) :
    runConv reg (.logicalT typeName u) = .ok (f (.logicalT typeName u)) := by
  rw [runConv, h]

/-- C8 witness: the built-in `decimal` entry is found under the middle
segment of `"logical:decimal"`. -/
theorem logical_dispatch_key_witness :
    runConv defaultLogicalTypes (.logicalT "logical:decimal" .longT) =
      .ok (.obj [("type", .str "number")]) :=
  logical_dispatch_key defaultLogicalTypes "logical:decimal" .longT decimal rfl

/-- C9: every successful record fragment carries all three of `type`,
`properties` and `required`; the empty record converts to exactly
`{type:"object", properties:{}, required:[]}`, and a record whose fields all
have defaults still carries `required` as the present empty array. -/
theorem record_shape (reg : Registry) :
    runConv reg (.recordT []) =
      .ok (.obj [("type", .str "object"), ("properties", .obj []), ("required", .arr [])]) ∧
    (∀ fields frag, runConv reg (.recordT fields) = .ok frag →
      (∃ (props : List (String × Json)) (req : List String),
        frag = Json.obj [("type", .str "object"), ("properties", .obj props),
          ("required", .arr (req.map Json.str))]) ∧
      ((∀ f ∈ fields, f.2.1 ≠ (none : Option Json)) →
        Json.lookup frag "required" = some (.arr []))) := by
  constructor
  · simp [runConv, runFields]
  · intro fields frag hconv
    rw [runConv] at hconv
    split at hconv
    · rename_i props req hsplit
      obtain rfl : Json.obj [("type", .str "object"), ("properties", .obj props),
          ("required", .arr (req.map .str))] = frag := by injection hconv
      refine ⟨⟨props, req, rfl⟩, ?_⟩
      intro hall
      obtain rfl : req = [] := runFields_allDefault fields [] [] props req hsplit hall
      rfl
    · exact Except.noConfusion hconv

/-- C9 witness: a record whose single field has default `false`. -/
theorem record_shape_witness :
    Json.lookup (Json.obj [("type", .str "object"),
      ("properties", .obj [("b", .obj [("type", .str "boolean"), ("default", .bool false)])]),
      ("required", .arr [])]) "required" = some (.arr []) :=
  ((record_shape defaultLogicalTypes).2 [("b", some (.bool false), .booleanT)]
    (Json.obj [("type", .str "object"),
      ("properties", .obj [("b", .obj [("type", .str "boolean"), ("default", .bool false)])]),
      ("required", .arr [])])
    (by simp [runConv, runFields, jsObjSet])).2
    (by
      intro f hf
      rw [List.mem_singleton] at hf
      subst hf
      simp)

/-- C10: conversion is deterministic and effect-free with respect to the
converter instance — the state-threaded run leaves the instance (hence the
registry) unchanged, a second run on the same tree returns the same
fragment, and the result is a function of the registry and the tree alone. -/
theorem conversion_pure (inst : Inst) (t : TypeNode) :
    (runConvSt inst t).2 = inst ∧
    (runConvSt (runConvSt inst t).2 t).1 = (runConvSt inst t).1 ∧
    (runConvSt inst t).1 = runConv inst.logicalTypeConvertors t := by
  simp [runConvSt_eq inst t]

end AvroToJsonSchema
